import Mathlib

/-!
Verification of the conversation-and-streaming-response subsystem of the
ai-chat backend (src/server.js). The file shallowly embeds the data model
(Message, Conversation, the MongoDB-backed store) and the request handlers
(buffered chat turn, streaming chat turn, listing, get, delete) as pure Lean
functions, and proves the testable properties of the specification about
them. External effects (the Gemini provider, the success of a storage save,
the fragment stream) are passed in as explicit parameters; each handler
returns the trace of observable events it produced, the resulting store,
and its outcome.
-/

set_option autoImplicit false

namespace AiChat

/-- Role of a chat message, per the Mongoose MessageSchema enum. -/
inductive Role where
  | user
  | assistant
deriving DecidableEq, Repr

/-- One chat message: role, content, timestamp (MessageSchema). Timestamps
are modelled as naturals supplied by the caller (the Date.now default). -/
structure Message where
  role : Role
  content : String
  timestamp : Nat
deriving DecidableEq, Repr

/-- One conversation document: owner, creation time, ordered messages
(ConversationSchema). -/
structure Conversation where
  userId : String
  createdAt : Nat
  messages : List Message
deriving DecidableEq, Repr

/-- The persisted collection of conversations, keyed by document id.
Ids are modelled as naturals. -/
abbrev Store := List (Nat × Conversation)

/-- Model of Conversation.findById: first entry with the given id. -/
def findById : Store → Nat → Option Conversation
  | [], _ => none
  | p :: rest, id => if p.1 = id then some p.2 else findById rest id

/-- Model of convo.save() for an already-loaded document: replace the entry
with the given id by the updated conversation. -/
def saveConvo : Store → Nat → Conversation → Store
  | [], _, _ => []
  | p :: rest, id, c => (if p.1 = id then (id, c) else p) :: saveConvo rest id c

/-- Model of Conversation.findByIdAndDelete: remove the entry with the given
id, if any. The route never inspects whether anything was removed. -/
def deleteById : Store → Nat → Store
  | [], _ => []
  | p :: rest, id => if p.1 = id then deleteById rest id else p :: deleteById rest id

/-- Observable events of a chat-turn request, in execution order:
provider invocation, durable append of the user or the assistant message,
a fragment written to the response channel, the abort sentinel
res.write of "\n[STREAM_ERROR]", and closing the channel (res.end). -/
inductive Ev where
  | genCalled
  | userSaved
  | assistantSaved (content : String)
  | wrote (s : String)
  | abortMarker
  | closed
deriving DecidableEq, Repr

/-- Placeholder answer used by the buffered route when the provider result
carries no text: result?.response?.text() ?? this string. -/
def noResponsePlaceholder : String := "(Không có phản hồi)"

/-- Outcome of the buffered POST /chat/:conversationId route. -/
inductive ChatOutcome where
  | invalidRequest
  | providerError
  | notFound
  | storageError
  | ok (answer : String) (messages : List Message)
deriving DecidableEq, Repr

/-- Did the buffered route commit and answer with success: true? -/
def ChatOutcome.committed : ChatOutcome → Bool
  | .ok _ _ => true
  | _ => false

/-- Shallow embedding of POST /chat/:conversationId (buffered turn).
Parameters beyond the request: now (Date.now), genResult (the awaited
model.generateContent call: .error () if it throws, .ok none if
result?.response?.text() is nullish, .ok (some t) if it returns t), and
saveOk (whether the final convo.save() succeeds). Returns the event trace,
the store afterwards, and the HTTP outcome. Mirrors the source order:
validate, call Gemini, findById, push user then assistant, save. -/
def chat (store : Store) (conversationId : Nat) (userId question : String)
    (now : Nat) (genResult : Except Unit (Option String)) (saveOk : Bool) :
    List Ev × Store × ChatOutcome :=
  if userId = "" ∨ question = "" then ([], store, ChatOutcome.invalidRequest)
  else
    match genResult with
    | Except.error _ => ([Ev.genCalled], store, ChatOutcome.providerError)
    | Except.ok t =>
      let answer := t.getD noResponsePlaceholder
      match findById store conversationId with
      | none => ([Ev.genCalled], store, ChatOutcome.notFound)
      | some convo =>
        let msgs := convo.messages ++
          [⟨Role.user, question, now⟩, ⟨Role.assistant, answer, now⟩]
        if saveOk then
          ([Ev.genCalled, Ev.userSaved, Ev.assistantSaved answer],
           saveConvo store conversationId { convo with messages := msgs },
           ChatOutcome.ok answer msgs)
        else ([Ev.genCalled], store, ChatOutcome.storageError)

/-- Environment of one streaming request: whether generateContentStream
itself throws, the fragments the stream yields in order (none models a
chunk whose text() is nullish; the route also skips empty strings), whether
the iteration throws after those fragments, and whether each of the two
convo.save() calls succeeds. -/
structure StreamRun where
  callFails : Bool
  fragments : List (Option String)
  failsAfter : Bool
  userSaveOk : Bool
  finalSaveOk : Bool
deriving Repr

/-- Outcome of the streaming POST /chat-stream/:conversationId route.
streamed covers every path that reached the chunked response (its
success or abort shows up in the event trace instead). -/
inductive StreamOutcome where
  | invalidRequest
  | notFound
  | streamed
deriving DecidableEq, Repr

/-- The for-await loop body: fold the fragments, skipping nullish or empty
text, accumulating the running full answer and the res.write events. -/
def writeFragments : List (Option String) → String × List Ev
  | [] => ("", [])
  | f :: fs =>
    let text := f.getD ""
    let rest := writeFragments fs
    if text = "" then rest
    else (text ++ rest.1, Ev.wrote text :: rest.2)

/-- Shallow embedding of POST /chat-stream/:conversationId. Mirrors the
source order: validate, findById, push and save the user message, call
generateContentStream, relay each fragment while accumulating fullAnswer,
res.end, then push and save the assistant message; any throw lands in the
catch block, which writes the abort sentinel and closes the channel (a
write attempted after the channel closed is swallowed and shows nothing). -/
def chatStream (store : Store) (conversationId : Nat) (userId question : String)
    (now : Nat) (run : StreamRun) : List Ev × Store × StreamOutcome :=
  if userId = "" ∨ question = "" then ([], store, StreamOutcome.invalidRequest)
  else
    match findById store conversationId with
    | none => ([], store, StreamOutcome.notFound)
    | some convo =>
      let convo1 := { convo with
        messages := convo.messages ++ [⟨Role.user, question, now⟩] }
      if run.userSaveOk = false then
        ([Ev.abortMarker, Ev.closed], store, StreamOutcome.streamed)
      else
        let store1 := saveConvo store conversationId convo1
        if run.callFails then
          ([Ev.userSaved, Ev.genCalled, Ev.abortMarker, Ev.closed],
           store1, StreamOutcome.streamed)
        else
          let fw := writeFragments run.fragments
          let base := Ev.userSaved :: Ev.genCalled :: fw.2
          if run.failsAfter then
            (base ++ [Ev.abortMarker, Ev.closed], store1, StreamOutcome.streamed)
          else if run.finalSaveOk then
            let convo2 := { convo1 with
              messages := convo1.messages ++ [⟨Role.assistant, fw.1, now⟩] }
            (base ++ [Ev.closed, Ev.assistantSaved fw.1],
             saveConvo store1 conversationId convo2, StreamOutcome.streamed)
          else (base ++ [Ev.closed], store1, StreamOutcome.streamed)

/-- Marker shown in a listing for a conversation with no (or blank) first
message content. -/
def emptyPreviewMarker : String := "(Cuộc trò chuyện trống)"

/-- Preview of one conversation in GET /conversations/:userId:
c.messages[0]?.content ? content.slice(0, 40) + "..." : the empty marker.
JS truthiness makes a missing first message and a blank content both fall
to the marker. -/
def preview (c : Conversation) : String :=
  match c.messages with
  | [] => emptyPreviewMarker
  | m :: _ => if m.content = "" then emptyPreviewMarker
              else m.content.take 40 ++ "..."

/-- Insert one conversation into a list sorted by createdAt descending. -/
def insertDesc (x : Nat × Conversation) :
    List (Nat × Conversation) → List (Nat × Conversation)
  | [] => [x]
  | y :: ys => if y.2.createdAt ≤ x.2.createdAt then x :: y :: ys
               else y :: insertDesc x ys

/-- Model of .sort with createdAt: -1 — sort by createdAt descending. -/
def sortByCreatedAtDesc : List (Nat × Conversation) → List (Nat × Conversation)
  | [] => []
  | x :: xs => insertDesc x (sortByCreatedAtDesc xs)

/-- Shallow embedding of GET /conversations/:userId: filter by owner, sort
by createdAt descending, map each conversation to (id, createdAt, preview). -/
def listConversations (store : Store) (userId : String) :
    List (Nat × Nat × String) :=
  (sortByCreatedAtDesc (store.filter (fun p => p.2.userId == userId))).map
    (fun p => (p.1, p.2.createdAt, preview p.2))

/-- Shallow embedding of GET /conversation/:id: none means the 404 Not
found response, some ms the success payload with the message list. -/
def getConversation (store : Store) (id : Nat) : Option (List Message) :=
  (findById store id).map Conversation.messages

/-- Shallow embedding of DELETE /conversation/:id: findByIdAndDelete, then
respond success: true unconditionally (the result is never inspected). -/
def deleteConversation (store : Store) (id : Nat) : Store × Bool :=
  (deleteById store id, true)

/-- Concatenation of all fragments written on the response channel in a
trace, the measurement used to compare the stream with the persisted
answer. -/
def writtenConcat : List Ev → String
  | [] => ""
  | Ev.wrote s :: rest => s ++ writtenConcat rest
  | _ :: rest => writtenConcat rest

/-! Helper lemmas about the store operations. -/

theorem findById_saveConvo {s : Store} {id : Nat} {c0 : Conversation}
    (c : Conversation) (h : findById s id = some c0) :
    findById (saveConvo s id c) id = some c := by
  induction s with
  | nil => simp [findById] at h
  | cons p rest ih =>
    by_cases hp : p.1 = id
    · simp [findById, saveConvo, hp]
    · simp [findById, saveConvo, hp] at h ⊢
      exact ih h

theorem findById_deleteById (s : Store) (id : Nat) :
    findById (deleteById s id) id = none := by
  induction s with
  | nil => simp [deleteById, findById]
  | cons p rest ih =>
    by_cases hp : p.1 = id
    · simpa [deleteById, hp] using ih
    · simpa [deleteById, findById, hp] using ih

/-! Helper lemmas about the fragment relay. -/

theorem writtenConcat_append (l1 l2 : List Ev) :
    writtenConcat (l1 ++ l2) = writtenConcat l1 ++ writtenConcat l2 := by
  induction l1 with
  | nil => simp [writtenConcat]
  | cons e rest ih =>
    cases e <;> simp [writtenConcat, ih, String.append_assoc]

theorem writtenConcat_writeFragments (fs : List (Option String)) :
    writtenConcat (writeFragments fs).2 = (writeFragments fs).1 := by
  induction fs with
  | nil => simp [writeFragments, writtenConcat]
  | cons f rest ih =>
    by_cases hf : f.getD "" = ""
    · simp [writeFragments, hf, ih]
    · simp [writeFragments, hf, writtenConcat, ih]

theorem writeFragments_events {fs : List (Option String)} {e : Ev}
    (h : e ∈ (writeFragments fs).2) : ∃ s, e = Ev.wrote s := by
  induction fs with
  | nil => simp [writeFragments] at h
  | cons f rest ih =>
    by_cases hf : f.getD "" = ""
    · rw [writeFragments] at h
      simp only [hf, if_pos] at h
      exact ih h
    · rw [writeFragments] at h
      simp only [hf, if_neg, not_false_iff, List.mem_cons] at h
      rcases h with h | h
      · exact ⟨_, h⟩
      · exact ih h

theorem abortMarker_notin_writeFragments (fs : List (Option String)) :
    Ev.abortMarker ∉ (writeFragments fs).2 := by
  intro h
  rcases writeFragments_events h with ⟨s, hs⟩
  exact Ev.noConfusion hs

theorem assistantSaved_notin_writeFragments (fs : List (Option String))
    (t : String) : Ev.assistantSaved t ∉ (writeFragments fs).2 := by
  intro h
  rcases writeFragments_events h with ⟨s, hs⟩
  exact Ev.noConfusion hs

/-! Helper lemmas about the listing sort. -/

theorem mem_insertDesc {x y : Nat × Conversation}
    {l : List (Nat × Conversation)} :
    y ∈ insertDesc x l ↔ y = x ∨ y ∈ l := by
  induction l with
  | nil => simp [insertDesc]
  | cons z zs ih =>
    by_cases hz : z.2.createdAt ≤ x.2.createdAt
    · simp [insertDesc, hz]
    · simp [insertDesc, hz, ih]
      tauto

theorem pairwise_insertDesc {x : Nat × Conversation}
    {l : List (Nat × Conversation)}
    (h : l.Pairwise (fun a b => b.2.createdAt ≤ a.2.createdAt)) :
    (insertDesc x l).Pairwise (fun a b => b.2.createdAt ≤ a.2.createdAt) := by
  induction l with
  | nil => simp [insertDesc]
  | cons z zs ih =>
    rcases List.pairwise_cons.mp h with ⟨hz, hzs⟩
    by_cases hle : z.2.createdAt ≤ x.2.createdAt
    · rw [insertDesc]
      simp only [hle, if_pos]
      refine List.pairwise_cons.mpr ⟨?_, h⟩
      intro b hb
      rcases List.mem_cons.mp hb with hb | hb
      · exact hb ▸ hle
      · exact le_trans (hz b hb) hle
    · rw [insertDesc]
      simp only [hle, if_neg, not_false_iff]
      refine List.pairwise_cons.mpr ⟨?_, ih hzs⟩
      intro b hb
      rcases mem_insertDesc.mp hb with hb | hb
      · exact hb ▸ le_of_lt (lt_of_not_le hle)
      · exact hz b hb

theorem pairwise_sortByCreatedAtDesc (l : List (Nat × Conversation)) :
    (sortByCreatedAtDesc l).Pairwise
      (fun a b => b.2.createdAt ≤ a.2.createdAt) := by
  induction l with
  | nil => simp [sortByCreatedAtDesc]
  | cons x xs ih => exact pairwise_insertDesc ih

theorem mem_sortByCreatedAtDesc {y : Nat × Conversation}
    {l : List (Nat × Conversation)} :
    y ∈ sortByCreatedAtDesc l ↔ y ∈ l := by
  induction l with
  | nil => simp [sortByCreatedAtDesc]
  | cons x xs ih =>
    rw [sortByCreatedAtDesc]
    rw [mem_insertDesc]
    simp [ih]

/-! Claim theorems. -/

/-- C1: for every valid (userId, question) pair sent as a buffered turn on an
existing conversation, exactly two new messages are appended to the transcript
of that conversation, in order [user, assistant], the user content being the
question and the assistant content being the text the provider returned. -/
theorem C1_buffered_turn_two_messages (store : Store) (cid : Nat)
    (u q : String) (now : Nat) (t : String) (c : Conversation)
    (hu : u ≠ "") (hq : q ≠ "") (hc : findById store cid = some c) :
    (chat store cid u q now (Except.ok (some t)) true).2.2 =
      ChatOutcome.ok t (c.messages ++
        [⟨Role.user, q, now⟩, ⟨Role.assistant, t, now⟩]) ∧
    findById (chat store cid u q now (Except.ok (some t)) true).2.1 cid =
      some { c with messages := c.messages ++
        [⟨Role.user, q, now⟩, ⟨Role.assistant, t, now⟩] } := by
  have hv : ¬(u = "" ∨ q = "") := by simp [hu, hq]
  refine ⟨?_, ?_⟩
  · simp [chat, hv, hc]
  · simp only [chat, if_neg hv, hc]
    exact findById_saveConvo _ hc

/-- Witness for C1 at a concrete run: one existing empty conversation,
question "hi", provider answer "4". -/
theorem C1_witness :
    (chat [(0, ⟨"u1", 5, []⟩)] 0 "u1" "hi" 7 (Except.ok (some "4")) true).2.2 =
      ChatOutcome.ok "4" [⟨Role.user, "hi", 7⟩, ⟨Role.assistant, "4", 7⟩] ∧
    findById
      (chat [(0, ⟨"u1", 5, []⟩)] 0 "u1" "hi" 7 (Except.ok (some "4")) true).2.1
      0 = some ⟨"u1", 5, [⟨Role.user, "hi", 7⟩, ⟨Role.assistant, "4", 7⟩]⟩ := by
  have h := C1_buffered_turn_two_messages [(0, ⟨"u1", 5, []⟩)] 0 "u1" "hi" 7 "4"
    ⟨"u1", 5, []⟩ (by decide) (by decide) rfl
  simpa using h

/-- C7: the buffered turn is atomic — a request rejected by validation has no
side effect at all (no provider call, no store change), any non-committed
outcome (validation, not-found, provider error, storage error) leaves the
store unchanged, and a committed outcome appends exactly the [user, assistant]
pair of the turn. -/
theorem C7_buffered_turn_atomic (store : Store) (cid : Nat) (u q : String)
    (now : Nat) (gen : Except Unit (Option String)) (saveOk : Bool) :
    ((u = "" ∨ q = "") →
        (chat store cid u q now gen saveOk).1 = [] ∧
        (chat store cid u q now gen saveOk).2.1 = store ∧
        (chat store cid u q now gen saveOk).2.2 = ChatOutcome.invalidRequest) ∧
    ((chat store cid u q now gen saveOk).2.2.committed = false →
        (chat store cid u q now gen saveOk).2.1 = store) ∧
    ((chat store cid u q now gen saveOk).2.2.committed = true →
        ∃ c ans, findById store cid = some c ∧
          (chat store cid u q now gen saveOk).2.2 = ChatOutcome.ok ans
            (c.messages ++ [⟨Role.user, q, now⟩, ⟨Role.assistant, ans, now⟩]) ∧
          findById (chat store cid u q now gen saveOk).2.1 cid =
            some { c with messages := c.messages ++
              [⟨Role.user, q, now⟩, ⟨Role.assistant, ans, now⟩] }) := by
  by_cases hv : u = "" ∨ q = ""
  · refine ⟨fun _ => by simp [chat, hv], ?_, ?_⟩ <;>
      simp [chat, hv, ChatOutcome.committed]
  · refine ⟨fun h => absurd h hv, ?_, ?_⟩
    · intro hcom
      match gen with
      | Except.error _ => simp [chat, hv]
      | Except.ok t =>
        cases hfind : findById store cid with
        | none => simp [chat, hv, hfind]
        | some c =>
          cases saveOk with
          | false => simp [chat, hv, hfind]
          | true => simp [chat, hv, hfind, ChatOutcome.committed] at hcom
    · intro hcom
      match gen with
      | Except.error _ => simp [chat, hv, ChatOutcome.committed] at hcom
      | Except.ok t =>
        cases hfind : findById store cid with
        | none => simp [chat, hv, hfind, ChatOutcome.committed] at hcom
        | some c =>
          cases saveOk with
          | false => simp [chat, hv, hfind, ChatOutcome.committed] at hcom
          | true =>
            refine ⟨c, t.getD noResponsePlaceholder, rfl, ?_, ?_⟩
            · simp [chat, hv, hfind]
            · simp only [chat, if_neg hv, hfind, if_true]
              exact findById_saveConvo _ hfind

/-- Witness for C7 at a concrete run: valid request, existing conversation,
provider answer "ok", save succeeding — the committed branch applies. -/
theorem C7_witness :
    ∃ c ans, findById [(0, ⟨"u1", 5, []⟩)] 0 = some c ∧
      (chat [(0, ⟨"u1", 5, []⟩)] 0 "u1" "hi" 7 (Except.ok (some "ok")) true).2.2 =
        ChatOutcome.ok ans
          (c.messages ++ [⟨Role.user, "hi", 7⟩, ⟨Role.assistant, ans, 7⟩]) ∧
      findById
        (chat [(0, ⟨"u1", 5, []⟩)] 0 "u1" "hi" 7 (Except.ok (some "ok")) true).2.1
        0 = some { c with messages := c.messages ++
          [⟨Role.user, "hi", 7⟩, ⟨Role.assistant, ans, 7⟩] } :=
  (C7_buffered_turn_atomic [(0, ⟨"u1", 5, []⟩)] 0 "u1" "hi" 7
    (Except.ok (some "ok")) true).2.2 (by decide)

/-- C10: a buffered turn whose provider call succeeds but carries no response
text still commits, with the fixed placeholder "(Không có phản hồi)" as the
assistant content, both in the response and in the persisted transcript. -/
theorem C10_no_response_placeholder (store : Store) (cid : Nat)
    (u q : String) (now : Nat) (c : Conversation)
    (hu : u ≠ "") (hq : q ≠ "") (hc : findById store cid = some c) :
    (chat store cid u q now (Except.ok none) true).2.2 =
      ChatOutcome.ok noResponsePlaceholder (c.messages ++
        [⟨Role.user, q, now⟩, ⟨Role.assistant, noResponsePlaceholder, now⟩]) ∧
    findById (chat store cid u q now (Except.ok none) true).2.1 cid =
      some { c with messages := c.messages ++
        [⟨Role.user, q, now⟩,
         ⟨Role.assistant, noResponsePlaceholder, now⟩] } := by
  have hv : ¬(u = "" ∨ q = "") := by simp [hu, hq]
  refine ⟨?_, ?_⟩
  · simp [chat, hv, hc]
  · simp only [chat, if_neg hv, hc, if_true]
    exact findById_saveConvo _ hc

/-- Witness for C10 at a concrete run: provider result with nullish text on
an existing conversation. -/
theorem C10_witness :
    (chat [(0, ⟨"u1", 5, []⟩)] 0 "u1" "hi" 7 (Except.ok none) true).2.2 =
      ChatOutcome.ok noResponsePlaceholder
        [⟨Role.user, "hi", 7⟩,
         ⟨Role.assistant, noResponsePlaceholder, 7⟩] ∧
    findById
      (chat [(0, ⟨"u1", 5, []⟩)] 0 "u1" "hi" 7 (Except.ok none) true).2.1 0 =
      some ⟨"u1", 5, [⟨Role.user, "hi", 7⟩,
        ⟨Role.assistant, noResponsePlaceholder, 7⟩]⟩ := by
  have h := C10_no_response_placeholder [(0, ⟨"u1", 5, []⟩)] 0 "u1" "hi" 7
    ⟨"u1", 5, []⟩ (by decide) (by decide) rfl
  simpa using h

/-- C2 counterexample: the buffered route is also conversation-scoped, yet it
invokes the provider before any persistence. On an existing conversation with
a valid request whose generation fails, the trace shows the provider call with
no preceding (or any) user-message save, and the transcript still has no
messages — the question was lost, contradicting the claim for buffered
conversation-scoped requests. -/
theorem C2_counterexample :
    (chat [(0, ⟨"u1", 0, []⟩)] 0 "u1" "hi" 5 (Except.error ()) true).1 =
      [Ev.genCalled] ∧
    Ev.userSaved ∉
      (chat [(0, ⟨"u1", 0, []⟩)] 0 "u1" "hi" 5 (Except.error ()) true).1 ∧
    getConversation
      (chat [(0, ⟨"u1", 0, []⟩)] 0 "u1" "hi" 5 (Except.error ()) true).2.1 0 =
      some [] := by
  decide

/-- C2 (amended): for every streaming conversation-scoped turn on an existing
conversation whose user-message save succeeds, the user message is appended
(and durably saved) before the provider is invoked — the trace starts with the
user save — and whatever happens afterwards (stream-call failure, mid-stream
failure, final-save failure, or success), the transcript keeps the user
message right after the previous messages. The buffered conversation-scoped
route does not satisfy this; see the counterexample. -/
theorem C2_stream_question_recorded_first (store : Store) (cid : Nat)
    (u q : String) (now : Nat) (run : StreamRun) (c : Conversation)
    (hu : u ≠ "") (hq : q ≠ "") (hc : findById store cid = some c)
    (hrun : run.userSaveOk = true) :
    (∃ rest, (chatStream store cid u q now run).1 = Ev.userSaved :: rest) ∧
    (∃ tail, findById (chatStream store cid u q now run).2.1 cid =
        some { c with messages :=
          c.messages ++ ⟨Role.user, q, now⟩ :: tail }) := by
  have hv : ¬(u = "" ∨ q = "") := by simp [hu, hq]
  have hsave : findById
      (saveConvo store cid
        { c with messages := c.messages ++ [⟨Role.user, q, now⟩] }) cid =
      some { c with messages := c.messages ++ [⟨Role.user, q, now⟩] } :=
    findById_saveConvo _ hc
  cases hcf : run.callFails with
  | true =>
    refine ⟨⟨[Ev.genCalled, Ev.abortMarker, Ev.closed], ?_⟩, ⟨[], ?_⟩⟩ <;>
      simp [chatStream, hv, hc, hrun, hcf, hsave]
  | false =>
    cases hfa : run.failsAfter with
    | true =>
      refine ⟨⟨Ev.genCalled :: (writeFragments run.fragments).2 ++
        [Ev.abortMarker, Ev.closed], ?_⟩, ⟨[], ?_⟩⟩ <;>
        simp [chatStream, hv, hc, hrun, hcf, hfa, hsave]
    | false =>
      cases hfs : run.finalSaveOk with
      | false =>
        refine ⟨⟨Ev.genCalled :: (writeFragments run.fragments).2 ++
          [Ev.closed], ?_⟩, ⟨[], ?_⟩⟩ <;>
          simp [chatStream, hv, hc, hrun, hcf, hfa, hfs, hsave]
      | true =>
        refine ⟨⟨Ev.genCalled :: (writeFragments run.fragments).2 ++
          [Ev.closed,
           Ev.assistantSaved (writeFragments run.fragments).1], ?_⟩,
          ⟨[⟨Role.assistant, (writeFragments run.fragments).1, now⟩], ?_⟩⟩
        · simp [chatStream, hv, hc, hrun, hcf, hfa, hfs]
        · simp only [chatStream, if_neg hv, hc, hrun, hcf, hfa, hfs,
            Bool.false_eq_true, if_false, if_true]
          have h2 := findById_saveConvo
            { c with messages :=
                (c.messages ++ [⟨Role.user, q, now⟩]) ++
                  [⟨Role.assistant, (writeFragments run.fragments).1, now⟩] }
            hsave
          simpa using h2

/-- Witness for C2 (amended) at a concrete run: one existing conversation,
a stream that fails right after the call (callFails), user save succeeding. -/
theorem C2_witness :
    (∃ rest,
      (chatStream [(0, ⟨"u1", 0, []⟩)] 0 "u1" "hi" 5
        ⟨true, [], false, true, true⟩).1 = Ev.userSaved :: rest) ∧
    (∃ tail, findById
        (chatStream [(0, ⟨"u1", 0, []⟩)] 0 "u1" "hi" 5
          ⟨true, [], false, true, true⟩).2.1 0 =
        some { userId := "u1", createdAt := 0,
               messages := [] ++ Message.mk Role.user "hi" 5 :: tail }) :=
  C2_stream_question_recorded_first [(0, ⟨"u1", 0, []⟩)] 0 "u1" "hi" 5
    ⟨true, [], false, true, true⟩ ⟨"u1", 0, []⟩
    (by decide) (by decide) rfl rfl

/-- C3: when the fragment stream fails mid-sequence on a streaming turn, the
transcript afterwards holds the user message and no assistant message for the
turn, and the channel shows the already-relayed fragments followed by the
abort marker immediately before the close — never a close with no signal. -/
theorem C3_stream_abort_marker (store : Store) (cid : Nat)
    (u q : String) (now : Nat) (frags : List (Option String))
    (c : Conversation)
    (hu : u ≠ "") (hq : q ≠ "") (hc : findById store cid = some c) :
    (chatStream store cid u q now ⟨false, frags, true, true, true⟩).1 =
      Ev.userSaved :: Ev.genCalled :: (writeFragments frags).2 ++
        [Ev.abortMarker, Ev.closed] ∧
    findById
      (chatStream store cid u q now ⟨false, frags, true, true, true⟩).2.1
      cid =
      some { c with messages := c.messages ++ [⟨Role.user, q, now⟩] } := by
  have hv : ¬(u = "" ∨ q = "") := by simp [hu, hq]
  refine ⟨by simp [chatStream, hv, hc], ?_⟩
  simp only [chatStream, if_neg hv, hc]
  simpa using findById_saveConvo
    { c with messages := c.messages ++ [⟨Role.user, q, now⟩] } hc

/-- Witness for C3 at a concrete run: stream yields "The" and " answer" and
then fails. -/
theorem C3_witness :
    (chatStream [(0, ⟨"u1", 0, []⟩)] 0 "u1" "hi" 5
      ⟨false, [some "The", some " answer"], true, true, true⟩).1 =
      Ev.userSaved :: Ev.genCalled ::
        (writeFragments [some "The", some " answer"]).2 ++
        [Ev.abortMarker, Ev.closed] ∧
    findById
      (chatStream [(0, ⟨"u1", 0, []⟩)] 0 "u1" "hi" 5
        ⟨false, [some "The", some " answer"], true, true, true⟩).2.1 0 =
      some { userId := "u1", createdAt := 0,
             messages := [] ++ [Message.mk Role.user "hi" 5] } :=
  C3_stream_abort_marker [(0, ⟨"u1", 0, []⟩)] 0 "u1" "hi" 5
    [some "The", some " answer"] ⟨"u1", 0, []⟩ (by decide) (by decide) rfl

/-- C4: on a streaming turn that completes without failure, no abort marker
appears on the channel and the concatenation of all fragments written to the
caller equals the assistant content persisted at the end of the transcript. -/
theorem C4_stream_concat_persisted (store : Store) (cid : Nat)
    (u q : String) (now : Nat) (frags : List (Option String))
    (c : Conversation)
    (hu : u ≠ "") (hq : q ≠ "") (hc : findById store cid = some c) :
    Ev.abortMarker ∉
      (chatStream store cid u q now ⟨false, frags, false, true, true⟩).1 ∧
    findById
      (chatStream store cid u q now ⟨false, frags, false, true, true⟩).2.1
      cid =
      some { c with messages := c.messages ++
        [⟨Role.user, q, now⟩,
         ⟨Role.assistant,
           writtenConcat
             (chatStream store cid u q now
               ⟨false, frags, false, true, true⟩).1, now⟩] } := by
  have hv : ¬(u = "" ∨ q = "") := by simp [hu, hq]
  have htr : (chatStream store cid u q now ⟨false, frags, false, true, true⟩).1 =
      Ev.userSaved :: Ev.genCalled :: (writeFragments frags).2 ++
        [Ev.closed, Ev.assistantSaved (writeFragments frags).1] := by
    simp [chatStream, hv, hc]
  have hwc : writtenConcat
      (chatStream store cid u q now ⟨false, frags, false, true, true⟩).1 =
      (writeFragments frags).1 := by
    rw [htr, writtenConcat_append]
    have h1 : writtenConcat
        (Ev.userSaved :: Ev.genCalled :: (writeFragments frags).2) =
        writtenConcat (writeFragments frags).2 := rfl
    rw [h1, writtenConcat_writeFragments]
    have h2 : writtenConcat
        [Ev.closed, Ev.assistantSaved (writeFragments frags).1] = "" := rfl
    rw [h2, String.append_empty]
  refine ⟨?_, ?_⟩
  · intro hmem
    rw [htr] at hmem
    rcases List.mem_append.mp hmem with hmem | h
    · rcases List.mem_cons.mp hmem with h | hmem
      · exact Ev.noConfusion h
      rcases List.mem_cons.mp hmem with h | h
      · exact Ev.noConfusion h
      · exact abortMarker_notin_writeFragments frags h
    · simp at h
  · rw [hwc]
    have hsave : findById
        (saveConvo store cid
          { c with messages := c.messages ++ [⟨Role.user, q, now⟩] }) cid =
        some { c with messages := c.messages ++ [⟨Role.user, q, now⟩] } :=
      findById_saveConvo _ hc
    simp only [chatStream, if_neg hv, hc]
    have h2 := findById_saveConvo
      { c with messages :=
          (c.messages ++ [⟨Role.user, q, now⟩]) ++
            [⟨Role.assistant, (writeFragments frags).1, now⟩] }
      hsave
    simpa using h2

/-- Witness for C4 at a concrete run: stream yields "The", " answer",
a nullish chunk, " is", " 4." and completes; concatenation "The answer is 4."
is persisted. -/
theorem C4_witness :
    Ev.abortMarker ∉
      (chatStream [(0, ⟨"u1", 0, []⟩)] 0 "u1" "hi" 5
        ⟨false, [some "The", some " answer", none, some " is", some " 4."],
         false, true, true⟩).1 ∧
    findById
      (chatStream [(0, ⟨"u1", 0, []⟩)] 0 "u1" "hi" 5
        ⟨false, [some "The", some " answer", none, some " is", some " 4."],
         false, true, true⟩).2.1 0 =
      some { userId := "u1", createdAt := 0, messages := [] ++
        [Message.mk Role.user "hi" 5,
         Message.mk Role.assistant
           (writtenConcat
             (chatStream [(0, ⟨"u1", 0, []⟩)] 0 "u1" "hi" 5
               ⟨false,
                [some "The", some " answer", none, some " is", some " 4."],
                false, true, true⟩).1) 5] } :=
  C4_stream_concat_persisted [(0, ⟨"u1", 0, []⟩)] 0 "u1" "hi" 5
    [some "The", some " answer", none, some " is", some " 4."]
    ⟨"u1", 0, []⟩ (by decide) (by decide) rfl

/-- C9: on a streaming turn the assistant message is persisted only after the
channel closes — in the successful trace the close event strictly precedes
the assistant save — and when that final save fails, the caller has still
observed a normally closed, unaborted stream while the transcript permanently
holds only the user message of the turn, with no assistant message. -/
theorem C9_assistant_saved_after_close (store : Store) (cid : Nat)
    (u q : String) (now : Nat) (frags : List (Option String))
    (c : Conversation)
    (hu : u ≠ "") (hq : q ≠ "") (hc : findById store cid = some c) :
    ((chatStream store cid u q now ⟨false, frags, false, true, true⟩).1 =
       Ev.userSaved :: Ev.genCalled :: (writeFragments frags).2 ++
         [Ev.closed, Ev.assistantSaved (writeFragments frags).1]) ∧
    ((chatStream store cid u q now ⟨false, frags, false, true, false⟩).1 =
       Ev.userSaved :: Ev.genCalled :: (writeFragments frags).2 ++
         [Ev.closed] ∧
     Ev.abortMarker ∉
       (chatStream store cid u q now ⟨false, frags, false, true, false⟩).1 ∧
     (∀ t, Ev.assistantSaved t ∉
       (chatStream store cid u q now ⟨false, frags, false, true, false⟩).1) ∧
     findById
       (chatStream store cid u q now ⟨false, frags, false, true, false⟩).2.1
       cid =
       some { c with messages := c.messages ++ [⟨Role.user, q, now⟩] }) := by
  have hv : ¬(u = "" ∨ q = "") := by simp [hu, hq]
  have htr : (chatStream store cid u q now ⟨false, frags, false, true, false⟩).1 =
      Ev.userSaved :: Ev.genCalled :: (writeFragments frags).2 ++
        [Ev.closed] := by
    simp [chatStream, hv, hc]
  refine ⟨by simp [chatStream, hv, hc], htr, ?_, ?_, ?_⟩
  · intro hmem
    rw [htr] at hmem
    rcases List.mem_append.mp hmem with hmem | h
    · rcases List.mem_cons.mp hmem with h | hmem
      · exact Ev.noConfusion h
      rcases List.mem_cons.mp hmem with h | h
      · exact Ev.noConfusion h
      · exact abortMarker_notin_writeFragments frags h
    · simp at h
  · intro t hmem
    rw [htr] at hmem
    rcases List.mem_append.mp hmem with hmem | h
    · rcases List.mem_cons.mp hmem with h | hmem
      · exact Ev.noConfusion h
      rcases List.mem_cons.mp hmem with h | h
      · exact Ev.noConfusion h
      · exact assistantSaved_notin_writeFragments frags t h
    · simp at h
  · simp only [chatStream, if_neg hv, hc]
    simpa using findById_saveConvo
      { c with messages := c.messages ++ [⟨Role.user, q, now⟩] } hc

/-- Witness for C9 at a concrete run: stream yields "4." and completes; the
two runs differ only in whether the post-close assistant save succeeds. -/
theorem C9_witness :
    ((chatStream [(0, ⟨"u1", 0, []⟩)] 0 "u1" "hi" 5
        ⟨false, [some "4."], false, true, true⟩).1 =
       Ev.userSaved :: Ev.genCalled :: (writeFragments [some "4."]).2 ++
         [Ev.closed, Ev.assistantSaved (writeFragments [some "4."]).1]) ∧
    ((chatStream [(0, ⟨"u1", 0, []⟩)] 0 "u1" "hi" 5
        ⟨false, [some "4."], false, true, false⟩).1 =
       Ev.userSaved :: Ev.genCalled :: (writeFragments [some "4."]).2 ++
         [Ev.closed] ∧
     Ev.abortMarker ∉
       (chatStream [(0, ⟨"u1", 0, []⟩)] 0 "u1" "hi" 5
         ⟨false, [some "4."], false, true, false⟩).1 ∧
     (∀ t, Ev.assistantSaved t ∉
       (chatStream [(0, ⟨"u1", 0, []⟩)] 0 "u1" "hi" 5
         ⟨false, [some "4."], false, true, false⟩).1) ∧
     findById
       (chatStream [(0, ⟨"u1", 0, []⟩)] 0 "u1" "hi" 5
         ⟨false, [some "4."], false, true, false⟩).2.1 0 =
       some { userId := "u1", createdAt := 0,
              messages := [] ++ [Message.mk Role.user "hi" 5] }) :=
  C9_assistant_saved_after_close [(0, ⟨"u1", 0, []⟩)] 0 "u1" "hi" 5
    [some "4."] ⟨"u1", 0, []⟩ (by decide) (by decide) rfl

/-- C5 counterexample: the delete route never inspects the result of
findByIdAndDelete, so deleting an id that does not exist (here id 0 on an
empty store) answers success: true instead of failing with NotFound. -/
theorem C5_counterexample :
    findById ([] : Store) 0 = none ∧
    (deleteConversation ([] : Store) 0).2 = true := by
  exact ⟨rfl, rfl⟩

/-- C5 (amended): deleting a conversation removes it — fetching the id
afterwards fails with NotFound — and the delete route reports success
whether or not the id existed (deleting a non-existent id also succeeds). -/
theorem C5_delete_then_get_not_found (store : Store) (id : Nat) :
    (deleteConversation store id).2 = true ∧
    findById (deleteConversation store id).1 id = none ∧
    getConversation (deleteConversation store id).1 id = none := by
  refine ⟨rfl, findById_deleteById store id, ?_⟩
  simp [getConversation, deleteConversation, findById_deleteById]

set_option maxRecDepth 4096 in
/-- C6 counterexample: the listing always appends "..." to the sliced first
message content, so for a conversation whose first message is "hi" the
preview is "hi..." — neither the at-most-40-character truncation "hi" of the
content nor the empty-conversation marker. -/
theorem C6_counterexample :
    listConversations [(0, ⟨"u", 3, [⟨Role.user, "hi", 1⟩]⟩)] "u" =
      [(0, 3, "hi...")] ∧
    "hi..." ≠ String.take "hi" 40 ∧
    "hi..." ≠ emptyPreviewMarker := by
  refine ⟨?_, by decide, by decide⟩
  decide

/-- C6 (amended): listing the conversations of a user returns them ordered
by createdAt descending; every entry comes from a stored conversation of
that user with its preview; the preview of a conversation with no messages
is the fixed empty marker, and otherwise (non-blank first content) it is the
first message content truncated to at most 40 characters with a fixed "..."
suffix appended. -/
theorem C6_listing_sorted_previews (store : Store) (u : String) :
    (listConversations store u).Pairwise (fun a b => b.2.1 ≤ a.2.1) ∧
    (∀ e ∈ listConversations store u, ∃ id c, (id, c) ∈ store ∧
        c.userId = u ∧ e = (id, c.createdAt, preview c)) ∧
    (∀ c : Conversation, c.messages = [] → preview c = emptyPreviewMarker) ∧
    (∀ (c : Conversation) (m : Message) (ms : List Message),
        c.messages = m :: ms → m.content ≠ "" →
        preview c = m.content.take 40 ++ "...") := by
  refine ⟨?_, ?_, ?_, ?_⟩
  · rw [listConversations, List.pairwise_map]
    exact pairwise_sortByCreatedAtDesc _
  · intro e he
    rw [listConversations, List.mem_map] at he
    rcases he with ⟨p, hp, hpe⟩
    rw [mem_sortByCreatedAtDesc] at hp
    rw [List.mem_filter] at hp
    refine ⟨p.1, p.2, hp.1, ?_, hpe.symm⟩
    exact beq_iff_eq.mp hp.2
  · intro c hcm
    simp [preview, hcm]
  · intro c m ms hcm hm
    simp [preview, hcm, hm]

/-- Witness for C6 at concrete inputs: a one-conversation store whose entry
appears with its preview, the marker for an empty conversation, and the
sliced-plus-suffix preview for first content "hello". -/
theorem C6_witness :
    (listConversations [(0, ⟨"u", 3, []⟩)] "u").Pairwise
      (fun a b => b.2.1 ≤ a.2.1) ∧
    (∃ id c, (id, c) ∈ ([(0, ⟨"u", 3, []⟩)] : Store) ∧ c.userId = "u" ∧
      ((0 : Nat), (3 : Nat), emptyPreviewMarker) =
        (id, c.createdAt, preview c)) ∧
    preview ⟨"u", 3, []⟩ = emptyPreviewMarker ∧
    preview ⟨"u", 3, [⟨Role.user, "hello", 0⟩]⟩ =
      String.take "hello" 40 ++ "..." := by
  refine ⟨(C6_listing_sorted_previews [(0, ⟨"u", 3, []⟩)] "u").1, ?_, ?_, ?_⟩
  · exact (C6_listing_sorted_previews [(0, ⟨"u", 3, []⟩)] "u").2.1
      (0, 3, emptyPreviewMarker) (by decide)
  · exact (C6_listing_sorted_previews ([] : Store) "u").2.2.1
      ⟨"u", 3, []⟩ rfl
  · exact (C6_listing_sorted_previews ([] : Store) "u").2.2.2
      ⟨"u", 3, [⟨Role.user, "hello", 0⟩]⟩ ⟨Role.user, "hello", 0⟩ [] rfl
      (by decide)

end AiChat
